import Mathlib

/-! # Verification of the mlabtest process-lifecycle core

Shallow embedding of the `mlabtest` Go package (`mlabtest.go`).  External
effects — the `MLAB_HOST` environment value, the side-channel id file, the
spawned subprocess, Go channels — are made explicit parameters or explicit
state.  A Go runtime panic is modelled by an `Option.none` result of the
stepped operation; a Go `error` value is modelled by its message string.
-/

/-- A Go `error` value, modelled by its message. -/
abbrev GoErr := String

/-- A parsed IP address (`net.IP`), modelled by its textual form. -/
abbrev Addr := String

/-- `var loopbackAddress = net.ParseIP("127.0.0.1")` (mlabtest.go:19). -/
def loopbackAddress : Addr := "127.0.0.1"

/-- `NetConfig` (mlabtest.go:53-56): the network configuration of a lab.
`Interfaces` models `map[string]net.IP` and `ExposedPorts` models
`map[int]int`; Go maps are modelled as association lists whose keys are
unique. -/
structure NetConfig where
  Interfaces : List (String × Addr)
  ExposedPorts : List (Int × Int)

/-- `func (n *NetConfig) IP() net.IP` (mlabtest.go:59-75).  The possibly-nil
receiver is modelled as `Option NetConfig`; the Go `range` loop that returns
"the first" element of a nonempty map is modelled by the head of the
association list.  Returns `none` for the Go `nil` result. -/
def NetConfig.IP (n : Option NetConfig) : Option Addr :=
  match n with
  | none => none
  | some nc =>
    if nc.Interfaces.isEmpty then none
    else
      match nc.Interfaces.lookup "eth0" with
      | some ip => some ip
      | none => nc.Interfaces.head?.map Prod.snd

/-- `func NeedForwarding() bool` (mlabtest.go:310-312):
`!strings.HasPrefix(os.Getenv("MLAB_HOST"), "unix:")`, with the environment
value injected as the argument `mlabHost`. -/
def NeedForwarding (mlabHost : String) : Bool :=
  !(List.isPrefixOf "unix:".toList mlabHost.toList)

/-- The port-mapping consultation at the end of `MLab.GetAddressPort`
(mlabtest.go:302-305): a recorded mapping yields the loopback address with
the mapped external port, otherwise the "could not find port mapping"
error naming the requested port. -/
def MLab.forwardLookup (conf : NetConfig) (port : Int) : Except GoErr (Addr × Int) :=
  match conf.ExposedPorts.lookup port with
  | some fport => Except.ok (loopbackAddress, fport)
  | none => Except.error ("could not find port mapping for " ++ toString port)

/-- `func (m *MLab) GetAddressPort(port int)` (mlabtest.go:288-306).  The
result of the `m.NetConfig()` call is injected as `confRes`, and the
`MLAB_HOST` environment value as `mlabHost`.  When `!NeedForwarding()` the
code returns `conf.IP()` with the untranslated port if that IP is non-nil,
and otherwise falls through to the port-mapping consultation. -/
def MLab.GetAddressPort (mlabHost : String) (confRes : Except GoErr NetConfig)
    (port : Int) : Except GoErr (Addr × Int) :=
  match confRes with
  | Except.error e => Except.error e
  | Except.ok conf =>
    if NeedForwarding mlabHost then MLab.forwardLookup conf port
    else
      match NetConfig.IP (some conf) with
      | some ip => Except.ok (ip, port)
      | none => MLab.forwardLookup conf port

/-- The outcome of a Go `Read` call that returned: byte count paired with
the returned "error" slot, which for the blocking reader is always the
end-of-stream marker `io.EOF` and never a real I/O error. -/
inductive ReadEnd where
  | eofMark : ReadEnd
  | ioError : String → ReadEnd

/-- `blockingReader` (mlabtest.go:321-324): `once` models the `sync.Once`
guard (`onceDone` is true after its first `Do`), `chanClosed` models whether
`close(b.c)` has been executed on the channel `c`. -/
structure blockingReader where
  onceDone : Bool
  chanClosed : Bool

/-- `newBlockingReader` (mlabtest.go:326-328): fresh `sync.Once`, open
channel. -/
def newBlockingReader : blockingReader :=
  { onceDone := false, chanClosed := false }

/-- `func (b *blockingReader) Read(_ []byte)` (mlabtest.go:330-333):
`<-b.c` blocks (modelled as `none`) while the channel is open; once the
channel is closed the receive returns immediately and the call returns
`(0, io.EOF)`. -/
def blockingReader.Read (b : blockingReader) : Option (Nat × ReadEnd) :=
  if b.chanClosed then some (0, ReadEnd.eofMark) else none

/-- `close(c)` on a Go channel: panics (modelled `none`) if the channel is
already closed, else marks it closed. -/
def chanClose (closed : Bool) : Option Bool :=
  if closed then none else some true

/-- `func (b *blockingReader) Close()` (mlabtest.go:335-338):
`b.once.Do(func() { close(b.c) }); return nil`.  `none` models a panic;
otherwise the new state is returned with the `nil` error result. -/
def blockingReader.Close (b : blockingReader) : Option (blockingReader × Option GoErr) :=
  if b.onceDone then some (b, none)
  else
    match chanClose b.chanClosed with
    | none => none
    | some c => some ({ onceDone := true, chanClosed := c }, none)

/-- Iterate `n` successive `Close` calls on a blocking reader, propagating a
panic. -/
def blockingReader.closeN : Nat → blockingReader → Option blockingReader
  | 0, b => some b
  | n + 1, b =>
    match blockingReader.Close b with
    | none => none
    | some (b', _) => blockingReader.closeN n b'

/-- The lifecycle-relevant state of an `MLab` handle (mlabtest.go:28-50):
whether `cmd.Process` is non-nil (the subprocess was actually spawned),
whether `closechan` has been closed, and whether the side-channel id file
still exists on disk. -/
structure MLab where
  processStarted : Bool
  closechanClosed : Bool
  idfilePresent : Bool

/-- The handle produced by `New` (mlabtest.go:85-110): temp id file created,
`closechan` freshly made (open), no process spawned yet. -/
def newMLab : MLab :=
  { processStarted := false, closechanClosed := false, idfilePresent := true }

/-- `func (m *MLab) IsClosed() bool` (mlabtest.go:218-225): the non-blocking
`select` on `closechan` returns true exactly when the channel has been
closed. -/
def MLab.IsClosed (m : MLab) : Bool := m.closechanClosed

/-- `func (m *MLab) Close() error` (mlabtest.go:132-146).  If `!IsClosed()`
the code calls `m.cmd.Process.Kill()`; when the process was never spawned
`m.cmd.Process` is the nil pointer and the `Kill` call dereferences it — a
Go runtime panic, modelled as `none`.  Otherwise the registered closers are
closed, `os.Remove(m.idfile)` runs, and `nil` is returned. -/
def MLab.Close (m : MLab) : Option (MLab × Option GoErr) :=
  if m.IsClosed then some ({ m with idfilePresent := false }, none)
  else if m.processStarted then some ({ m with idfilePresent := false }, none)
  else none

/-- The reachable states of an `MLab` handle: freshly constructed by `New`;
after `Start` failed at `cmd.Start` (`closechan` closed by the failure
path); after a successful `Start` with the process still alive; after the
process exited (the monitor closed `closechan`); and after any
non-panicking `Close`. -/
inductive Reachable : MLab → Prop where
  | created : Reachable ⟨false, false, true⟩
  | spawnFailed : Reachable ⟨false, true, true⟩
  | running : Reachable ⟨true, false, true⟩
  | exited : Reachable ⟨true, true, true⟩
  | closedStep : ∀ m m' e, Reachable m → MLab.Close m = some (m', e) → Reachable m'

/-- `bytes.TrimSpace` on the id-file contents (mlabtest.go:208): leading and
trailing whitespace stripped. -/
def trimSpace (cs : List Char) : List Char :=
  ((cs.dropWhile Char.isWhitespace).reverse.dropWhile Char.isWhitespace).reverse

/-- The external events a single `doStart` run can encounter, injected as
parameters: an error from `cmd.StdoutPipe()`, from `cmd.Start()`, from the
`io.Copy`; whether `closechan` fires before the 50ms grace timer; the exit
description used in the "mlab exited" error; and the id-file contents
(`none` models a `ReadFile` error). -/
structure StartEnv where
  pipeErr : Option GoErr
  spawnErr : Option GoErr
  copyErr : Option GoErr
  exitsDuringStartup : Bool
  exitDescription : String
  idfileContents : Option (List Char)

/-- Observable outcome of one `doStart` run: the returned error, the
recorded container id, whether the spawn-failure path executed
`close(m.closechan)` in the calling thread, and whether the exit-monitor
goroutine (which closes `closechan` after `cmd.Wait()`) was launched. -/
structure StartResult where
  err : Option GoErr
  id : List Char
  mainClosedChan : Bool
  monitorSpawned : Bool

/-- `func (m *MLab) doStart() error` (mlabtest.go:157-210), with external
events injected via `env`.  The spawn-failure path closes `closechan`
directly and never launches the monitor; every later path has launched the
monitor and does not close the channel itself.  On success the trimmed
id-file contents become the id — with no non-emptiness check. -/
def MLab.doStart (env : StartEnv) : StartResult :=
  match env.pipeErr with
  | some e => { err := some e, id := [], mainClosedChan := false, monitorSpawned := false }
  | none =>
    match env.spawnErr with
    | some e => { err := some e, id := [], mainClosedChan := true, monitorSpawned := false }
    | none =>
      match env.copyErr with
      | some e => { err := some e, id := [], mainClosedChan := false, monitorSpawned := true }
      | none =>
        if env.exitsDuringStartup then
          { err := some ("mlab exited: " ++ env.exitDescription), id := [],
            mainClosedChan := false, monitorSpawned := true }
        else
          match env.idfileContents with
          | none =>
            { err := some "reading idfile failed", id := [],
              mainClosedChan := false, monitorSpawned := true }
          | some c =>
            { err := none, id := trimSpace c,
              mainClosedChan := false, monitorSpawned := true }

/-- How many times `close(m.closechan)` executes over the whole life of a
run: once by the spawn-failure path if taken, once by the monitor goroutine
if it was launched and the process eventually exits. -/
def chanFires (r : StartResult) (processExits : Bool) : Nat :=
  (if r.mainClosedChan then 1 else 0) + (if r.monitorSpawned && processExits then 1 else 0)

/-- Whether `closechan` ends up closed after a run of `doStart`, given
whether the process eventually exits. -/
def closechanClosedAfter (r : StartResult) (processExits : Bool) : Bool :=
  r.mainClosedChan || (r.monitorSpawned && processExits)

/-- The `MLab` handle state after a `doStart` run: the process reference is
non-nil exactly when both the pipe attach and the spawn succeeded. -/
def stateAfterStart (env : StartEnv) (processExits : Bool) : MLab :=
  { processStarted := env.pipeErr.isNone && env.spawnErr.isNone,
    closechanClosed := closechanClosedAfter (MLab.doStart env) processExits,
    idfilePresent := true }

/-- A fully successful `doStart` environment whose id file holds only
whitespace. -/
def envEmptyId : StartEnv :=
  { pipeErr := none, spawnErr := none, copyErr := none,
    exitsDuringStartup := false, exitDescription := "",
    idfileContents := some [' ', '\n'] }

/-- `env` with every step before the id-file read succeeding: pipe attach,
spawn and output copy all succeed and the process stays alive through the
grace window, so `doStart` reaches the `ReadFile(m.idfile)` step with the
given file contents. -/
def envReady (env : StartEnv) (contents : Option (List Char)) : StartEnv :=
  { env with
      pipeErr := none, spawnErr := none, copyErr := none,
      exitsDuringStartup := false, idfileContents := contents }

/-- `env` with the pipe attach succeeding and `cmd.Start()` failing with
`e`: the spawn-failure path of `doStart`. -/
def envSpawnFail (env : StartEnv) (e : GoErr) : StartEnv :=
  { env with pipeErr := none, spawnErr := some e }

/-- `env` with the pipe attach and `cmd.Start()` both succeeding: every
such run launches the exit-monitor goroutine. -/
def envSpawnOk (env : StartEnv) : StartEnv :=
  { env with pipeErr := none, spawnErr := none }

/-- Observable outcome of one `MLab.NetConfig()` call (mlabtest.go:229-239):
the returned value, the cache field afterwards, and whether the external
`mlab inspect` invocation (`getNetConfig`) ran. -/
structure NCResult where
  res : Except GoErr NetConfig
  cache : Option NetConfig
  invoked : Bool

/-- `func (m *MLab) NetConfig()` (mlabtest.go:229-239), one call: a non-nil
cache is returned immediately without inspection; otherwise the injected
inspection result `inspect` is returned, and cached only on success. -/
def MLab.NetConfigStep (cached : Option NetConfig) (inspect : Except GoErr NetConfig) :
    NCResult :=
  match cached with
  | some nc => { res := Except.ok nc, cache := some nc, invoked := false }
  | none =>
    match inspect with
    | Except.ok nc => { res := Except.ok nc, cache := some nc, invoked := true }
    | Except.error e => { res := Except.error e, cache := none, invoked := true }

/-- A sequence of `NetConfig()` calls on one handle, each with its own
would-be inspection result; returns the per-call (result, inspected?) pairs
and the final cache. -/
def runNetConfigCalls (cached : Option NetConfig) :
    List (Except GoErr NetConfig) → List (Except GoErr NetConfig × Bool) × Option NetConfig
  | [] => ([], cached)
  | r :: rs =>
    let s := MLab.NetConfigStep cached r
    let rest := runNetConfigCalls s.cache rs
    ((s.res, s.invoked) :: rest.1, rest.2)

/-- Extend the current split state with one more character (the non-newline
case of `splitLines`): the character joins the front of the first completed
line if one exists, else the pending leftover. -/
def pushChar (c : Char) : List (List Char) × List Char → List (List Char) × List Char
  | ([], p) => ([], c :: p)
  | (l :: ls, p) => ((c :: l) :: ls, p)

/-- `bufio.ScanLines` tokenisation (used by the scanner in `NewLineLogger`,
logger.go): split a byte stream into the completed lines (newline
terminators stripped) and the unterminated trailing leftover. -/
def splitLines : List Char → List (List Char) × List Char
  | [] => ([], [])
  | c :: rest =>
    if c = '\n' then ([] :: (splitLines rest).1, (splitLines rest).2)
    else pushChar c (splitLines rest)

/-- `dropCR` of `bufio.ScanLines`: strip one trailing carriage return from
a completed line. -/
def dropCR (l : List Char) : List Char :=
  if l.getLast? = some '\r' then l.dropLast else l

/-- The line-assembly loop of `NewLineLogger` (logger.go:354-367) run over a
sequence of chunk writes: the scanner buffers unterminated bytes and emits
each line as soon as its terminator arrives.  Returns the emitted lines (in
order) and the leftover still buffered when the writes stop. -/
def lineLoggerRun (buf : List Char) : List (List Char) → List (List Char) × List Char
  | [] => ([], buf)
  | chunk :: rest =>
    let s := splitLines (buf ++ chunk)
    let r := lineLoggerRun s.2 rest
    (s.1 ++ r.1, r.2)

/-- `NewLineLogger` behaviour over a whole sequence of writes, before the
sink is closed: the callback receives `scanner.Text()` for each completed
line (`ScanLines` token with `dropCR` applied); the leftover is not
delivered. -/
def NewLineLoggerRun (chunks : List (List Char)) : List (List Char) × List Char :=
  ((lineLoggerRun [] chunks).1.map dropCR, (lineLoggerRun [] chunks).2)

/-- A concrete network configuration used as test input: one interface
`eth0` at 10.0.0.5, internal port 5432 exposed at 55000. -/
def conf0 : NetConfig :=
  { Interfaces := [("eth0", "10.0.0.5")], ExposedPorts := [(5432, 55000)] }

theorem closeN_after_release (n : Nat) :
    blockingReader.closeN n ⟨true, true⟩ = some ⟨true, true⟩ := by
  induction n with
  | zero => rfl
  | succ n ih => simpa [blockingReader.closeN, blockingReader.Close] using ih

/-- C3: every Read before the first release blocks; after the first release
call every Read returns immediately with zero bytes and end-of-stream (the
`io.EOF` marker, never a real error); and Close may be invoked any number
of times without panicking or closing the channel more than once (a second
channel close would be the panicking `none` outcome), always returning the
nil error. -/
theorem blockingreader_gate (n : Nat) :
    newBlockingReader.Read = none
    ∧ blockingReader.closeN (n + 1) newBlockingReader = some ⟨true, true⟩
    ∧ blockingReader.Read ⟨true, true⟩ = some (0, ReadEnd.eofMark)
    ∧ blockingReader.Close ⟨true, true⟩ = some (⟨true, true⟩, none)
    ∧ blockingReader.Close newBlockingReader = some (⟨true, true⟩, none) := by
  refine ⟨rfl, ?_, rfl, rfl, rfl⟩
  have h1 : blockingReader.closeN (n + 1) newBlockingReader
      = blockingReader.closeN n ⟨true, true⟩ := rfl
  rw [h1, closeN_after_release]

/-- C2: the claim fails — the freshly constructed handle (New called, Start
never called) is reachable, and Close on it panics (dereferences the nil
`cmd.Process` in `m.cmd.Process.Kill()`), so it neither returns nor removes
the still-present side-channel id file. -/
theorem mlab_close_panics_before_start :
    Reachable newMLab ∧ MLab.Close newMLab = none ∧ newMLab.idfilePresent = true :=
  ⟨Reachable.created, rfl, rfl⟩

/-- C4 counterexample: with every earlier step succeeding and the id file
readable but containing only whitespace, `doStart` returns no error and
records the empty identifier — the claim says this must be a start
failure. -/
theorem start_empty_identifier_succeeds :
    (MLab.doStart envEmptyId).err = none ∧ (MLab.doStart envEmptyId).id = [] :=
  ⟨rfl, by decide⟩

/-- C4 (amended): Start fails whenever the side-channel id file cannot be
read; when the read succeeds Start succeeds and records the trimmed
contents as the identifier, even when that trimmed content is empty — no
non-emptiness check is performed. -/
theorem start_identifier_read (env : StartEnv) (c : List Char) :
    ((MLab.doStart (envReady env none)).err).isSome = true
    ∧ (MLab.doStart (envReady env (some c))).err = none
    ∧ (MLab.doStart (envReady env (some c))).id = trimSpace c :=
  ⟨rfl, rfl, rfl⟩

/-- C1 counterexample: with a host value that DOES begin with "unix:" the
code returns the primary interface address with the untranslated port
(routed mode), and with a host value that does NOT begin with "unix:" it
consults the port mapping (forwarding path) — the exact opposite of the
claimed direction. -/
theorem routed_mode_prefix_inverted :
    (List.isPrefixOf "unix:".toList "unix:/run/mlab.sock".toList = true
      ∧ MLab.GetAddressPort "unix:/run/mlab.sock" (Except.ok conf0) 5432
          = Except.ok ("10.0.0.5", 5432))
    ∧ (List.isPrefixOf "unix:".toList "tcp:remote".toList = false
      ∧ MLab.GetAddressPort "tcp:remote" (Except.ok conf0) 5432
          = Except.ok (loopbackAddress, 55000)) :=
  ⟨⟨by decide, rfl⟩, ⟨by decide, rfl⟩⟩

/-- C1 (amended): GetAddressPort selects routed mode (primary interface
address unchanged with the untranslated internal port, when a primary
address exists) exactly when MLAB_HOST DOES begin with the "unix:" prefix;
when it does not begin with that prefix the call goes to the
port-forwarding consultation. -/
theorem routed_mode_selection (host : String) (conf : NetConfig) (port : Int) :
    (List.isPrefixOf "unix:".toList host.toList = true →
      MLab.GetAddressPort host (Except.ok conf) port =
        (match NetConfig.IP (some conf) with
         | some ip => Except.ok (ip, port)
         | none => MLab.forwardLookup conf port))
    ∧ (List.isPrefixOf "unix:".toList host.toList = false →
      MLab.GetAddressPort host (Except.ok conf) port = MLab.forwardLookup conf port) := by
  constructor
  · intro h
    have hnf : NeedForwarding host = false := by
      simp only [NeedForwarding, h, Bool.not_true]
    simp [MLab.GetAddressPort, hnf]
  · intro h
    have hnf : NeedForwarding host = true := by
      simp only [NeedForwarding, h, Bool.not_false]
    simp [MLab.GetAddressPort, hnf]

/-- Witness for C1 (amended) at a concrete unix-prefixed host. -/
theorem routed_mode_selection_witness :
    List.isPrefixOf "unix:".toList "unix:a".toList = true
    ∧ MLab.GetAddressPort "unix:a" (Except.ok conf0) 5432
        = Except.ok ("10.0.0.5", 5432) := by
  refine ⟨by decide, ?_⟩
  exact (routed_mode_selection "unix:a" conf0 5432).1 (by decide)

theorem getAddressPort_forwarding_eq (host : String) (conf : NetConfig) (port : Int)
    (h : NeedForwarding host = true ∨ NetConfig.IP (some conf) = none) :
    MLab.GetAddressPort host (Except.ok conf) port = MLab.forwardLookup conf port := by
  rcases h with h | h
  · simp [MLab.GetAddressPort, h]
  · cases hf : NeedForwarding host <;> simp [MLab.GetAddressPort, hf, h]

/-- C6: on the forwarding path (forwarded mode, or no primary address): a
recorded mapping for the internal port yields the loopback address with the
mapped external port; an unmapped port yields the error naming the
requested port; and an error is returned exactly when no mapping is
recorded. -/
theorem forwarding_path_lookup (host : String) (conf : NetConfig) (port : Int)
    (h : NeedForwarding host = true ∨ NetConfig.IP (some conf) = none) :
    (∀ fp, conf.ExposedPorts.lookup port = some fp →
        MLab.GetAddressPort host (Except.ok conf) port = Except.ok (loopbackAddress, fp))
    ∧ (conf.ExposedPorts.lookup port = none →
        MLab.GetAddressPort host (Except.ok conf) port =
          Except.error ("could not find port mapping for " ++ toString port))
    ∧ ((∃ e, MLab.GetAddressPort host (Except.ok conf) port = Except.error e)
        ↔ conf.ExposedPorts.lookup port = none) := by
  have heq := getAddressPort_forwarding_eq host conf port h
  refine ⟨?_, ?_, ?_⟩
  · intro fp hfp
    rw [heq]
    simp [MLab.forwardLookup, hfp]
  · intro hfp
    rw [heq]
    simp [MLab.forwardLookup, hfp]
  · rw [heq]
    cases hfp : conf.ExposedPorts.lookup port <;> simp [MLab.forwardLookup, hfp]

/-- Witness for C6 at a concrete non-unix host and the mapping 5432 to
55000. -/
theorem forwarding_path_lookup_witness :
    (NeedForwarding "tcp:remote" = true ∨ NetConfig.IP (some conf0) = none)
    ∧ MLab.GetAddressPort "tcp:remote" (Except.ok conf0) 5432
        = Except.ok (loopbackAddress, 55000) := by
  refine ⟨Or.inl (by decide), ?_⟩
  exact (forwarding_path_lookup "tcp:remote" conf0 5432 (Or.inl (by decide))).1
    55000 (by decide)

theorem runNetConfigCalls_cached (nc : NetConfig) (rs : List (Except GoErr NetConfig)) :
    runNetConfigCalls (some nc) rs = (rs.map (fun _ => (Except.ok nc, false)), some nc) := by
  induction rs with
  | nil => rfl
  | cons r rs ih => simp [runNetConfigCalls, MLab.NetConfigStep, ih]

/-- C5: once the cache holds a successfully resolved NetConfig, every
subsequent NetConfig call returns that identical value without invoking the
external inspection, and the cache is never mutated; likewise a first
successful resolution is followed only by cached answers. -/
theorem netconfig_memoized (nc : NetConfig) (rs : List (Except GoErr NetConfig)) :
    runNetConfigCalls (some nc) rs = (rs.map (fun _ => (Except.ok nc, false)), some nc)
    ∧ runNetConfigCalls none (Except.ok nc :: rs)
        = ((Except.ok nc, true) :: rs.map (fun _ => (Except.ok nc, false)), some nc) := by
  refine ⟨runNetConfigCalls_cached nc rs, ?_⟩
  simp [runNetConfigCalls, MLab.NetConfigStep, runNetConfigCalls_cached]

/-- C10: a failed resolution is never cached — on an inspection error the
cache stays unset and the error is propagated, any call with an unset cache
invokes the inspection, and only a successful result is ever stored. -/
theorem netconfig_error_not_cached (e : GoErr) (nc : NetConfig) (r : Except GoErr NetConfig) :
    MLab.NetConfigStep none (Except.error e)
        = { res := Except.error e, cache := none, invoked := true }
    ∧ (MLab.NetConfigStep none r).invoked = true
    ∧ (MLab.NetConfigStep none (Except.ok nc)).cache = some nc
    ∧ (MLab.NetConfigStep none (Except.error e)).cache = none := by
  refine ⟨rfl, ?_, rfl, rfl⟩
  cases r <;> rfl

/-- C8: `close(m.closechan)` executes at most once over every `doStart`
path — the spawn-failure close and the exit-monitor close never both run —
it does run whenever the spawn failed or (the monitor having been
launched) the process exits, and `IsClosed` is true exactly when the
channel has been closed. -/
theorem closechan_once (env : StartEnv) (processExits : Bool) (e : GoErr) :
    chanFires (MLab.doStart env) processExits ≤ 1
    ∧ ((MLab.doStart env).mainClosedChan && (MLab.doStart env).monitorSpawned) = false
    ∧ (MLab.doStart (envSpawnFail env e)).mainClosedChan = true
    ∧ chanFires (MLab.doStart (envSpawnFail env e)) processExits = 1
    ∧ chanFires (MLab.doStart (envSpawnOk env)) true = 1
    ∧ (MLab.IsClosed (stateAfterStart env processExits) = true
        ↔ 0 < chanFires (MLab.doStart env) processExits) := by
  obtain ⟨pe, se, ce, ex, d, f⟩ := env
  cases pe <;> cases se <;> cases ce <;> cases ex <;> cases f <;> cases processExits <;>
    simp [MLab.doStart, chanFires, closechanClosedAfter, stateAfterStart, MLab.IsClosed,
      envSpawnFail, envSpawnOk]

theorem lookup_eq_of_mem_of_nodup (ifcs : List (String × Addr)) (k : String) (v : Addr)
    (hnd : (ifcs.map Prod.fst).Nodup) (hmem : (k, v) ∈ ifcs) :
    ifcs.lookup k = some v := by
  induction ifcs with
  | nil => cases hmem
  | cons a t ih =>
    obtain ⟨a1, a2⟩ := a
    simp only [List.map_cons, List.nodup_cons] at hnd
    rcases List.mem_cons.mp hmem with h | h
    · injection h with h1 h2
      subst h1
      subst h2
      simp [List.lookup]
    · have hk : k ≠ a1 := by
        rintro rfl
        exact hnd.1 (List.mem_map_of_mem Prod.fst h)
      have hbeq : (k == a1) = false := beq_eq_false_iff_ne.mpr hk
      simp [List.lookup, hbeq, ih hnd.2 h]

theorem mem_of_lookup_eq_some (l : List (String × Addr)) (k : String) (v : Addr)
    (h : l.lookup k = some v) : (k, v) ∈ l := by
  induction l with
  | nil => simp [List.lookup] at h
  | cons a t ih =>
    obtain ⟨a1, a2⟩ := a
    by_cases hk : k = a1
    · subst hk
      simp [List.lookup] at h
      subst h
      exact List.mem_cons_self _ _
    · have hbeq : (k == a1) = false := beq_eq_false_iff_ne.mpr hk
      simp [List.lookup, hbeq] at h
      exact List.mem_cons_of_mem _ (ih h)

/-- C9: the primary-address selection of `NetConfig.IP` returns the address
bound to the interface named "eth0" whenever that key is present; otherwise
it returns the address of some interface whenever at least one exists; and
it returns none exactly when no interfaces are present (including the nil
receiver). -/
theorem netconfig_ip_selection (ifcs : List (String × Addr)) (ep : List (Int × Int))
    (hnd : (ifcs.map Prod.fst).Nodup) :
    (∀ ip, ("eth0", ip) ∈ ifcs → NetConfig.IP (some ⟨ifcs, ep⟩) = some ip)
    ∧ (ifcs ≠ [] → ∃ nm ip, (nm, ip) ∈ ifcs ∧ NetConfig.IP (some ⟨ifcs, ep⟩) = some ip)
    ∧ (NetConfig.IP (some ⟨ifcs, ep⟩) = none ↔ ifcs = [])
    ∧ NetConfig.IP none = none := by
  refine ⟨?_, ?_, ?_, rfl⟩
  · intro ip hmem
    have hne : ifcs.isEmpty = false := by
      cases ifcs
      · cases hmem
      · rfl
    have hlk : ifcs.lookup "eth0" = some ip :=
      lookup_eq_of_mem_of_nodup ifcs "eth0" ip hnd hmem
    simp [NetConfig.IP, hne, hlk]
  · intro hne
    have hemp : ifcs.isEmpty = false := by
      cases ifcs
      · exact absurd rfl hne
      · rfl
    cases hlk : ifcs.lookup "eth0" with
    | some ip =>
      exact ⟨"eth0", ip, mem_of_lookup_eq_some ifcs "eth0" ip hlk,
        by simp [NetConfig.IP, hemp, hlk]⟩
    | none =>
      cases ifcs with
      | nil => exact absurd rfl hne
      | cons a t =>
        exact ⟨a.1, a.2, List.mem_cons_self _ _,
          by simp [NetConfig.IP, hlk]⟩
  · cases ifcs with
    | nil => simp [NetConfig.IP]
    | cons a t =>
      cases hlk : (a :: t).lookup "eth0" <;>
        simp [NetConfig.IP, hlk]

/-- Witness for C9 at the one-interface configuration. -/
theorem netconfig_ip_selection_witness :
    (([("eth0", ("10.0.0.5" : Addr))].map Prod.fst).Nodup)
    ∧ NetConfig.IP (some ⟨[("eth0", "10.0.0.5")], []⟩) = some "10.0.0.5" :=
  ⟨by simp, (netconfig_ip_selection [("eth0", "10.0.0.5")] [] (by simp)).1
    "10.0.0.5" (by simp)⟩

theorem splitLines_leftover (x : List Char) :
    splitLines ((splitLines x).2) = ([], (splitLines x).2) := by
  induction x with
  | nil => rfl
  | cons c rest ih =>
    by_cases hc : c = '\n'
    · subst hc
      simpa [splitLines] using ih
    · rcases h : splitLines rest with ⟨ls, p⟩
      cases ls with
      | nil =>
        have hp : splitLines p = ([], p) := by simpa [h] using ih
        simp [splitLines, hc, pushChar, h, hp]
      | cons l ls0 =>
        have hp : splitLines p = ([], p) := by simpa [h] using ih
        simp [splitLines, hc, pushChar, h, hp]

theorem splitLines_append (a b : List Char) :
    splitLines (a ++ b) =
      ((splitLines a).1 ++ (splitLines ((splitLines a).2 ++ b)).1,
        (splitLines ((splitLines a).2 ++ b)).2) := by
  induction a with
  | nil => simp [splitLines]
  | cons c a ih =>
    by_cases hc : c = '\n'
    · subst hc
      simp [splitLines, ih]
    · rcases h : splitLines a with ⟨ls, pa⟩
      cases ls with
      | nil =>
        rcases h2 : splitLines (pa ++ b) with ⟨L, P⟩
        simp [splitLines, hc, pushChar, h, ih, h2]
      | cons l ls0 =>
        simp [splitLines, hc, pushChar, h, ih]

theorem lineLoggerRun_eq (chunks : List (List Char)) (buf : List Char)
    (hbuf : splitLines buf = ([], buf)) :
    lineLoggerRun buf chunks = splitLines (buf ++ chunks.flatten) := by
  induction chunks generalizing buf with
  | nil => simp [lineLoggerRun, hbuf]
  | cons c rest ih =>
    have hleft := splitLines_leftover (buf ++ c)
    have hrec := ih (splitLines (buf ++ c)).2 hleft
    rw [List.flatten_cons, ← List.append_assoc, splitLines_append (buf ++ c) rest.flatten]
    simp [lineLoggerRun, hrec]

/-- C7: for every partition of the byte sequence "a\nbb\nccc" into
successive writes, the line splitter delivers exactly the two completed
lines "a" then "bb" (terminators stripped) to the callback, and the
unterminated trailing "ccc" stays buffered, undelivered before close. -/
theorem linelogger_lines (chunks : List (List Char))
    (h : chunks.flatten = ['a', '\n', 'b', 'b', '\n', 'c', 'c', 'c']) :
    NewLineLoggerRun chunks = ([['a'], ['b', 'b']], ['c', 'c', 'c']) := by
  have hrun := lineLoggerRun_eq chunks [] rfl
  rw [h] at hrun
  simp only [NewLineLoggerRun, hrun]
  decide

/-- Witness for C7 at one concrete partition into four writes. -/
theorem linelogger_lines_witness :
    ([['a', '\n'], ['b'], ['b', '\n', 'c', 'c'], ['c']].flatten
        = ['a', '\n', 'b', 'b', '\n', 'c', 'c', 'c'])
    ∧ NewLineLoggerRun [['a', '\n'], ['b'], ['b', '\n', 'c', 'c'], ['c']]
        = ([['a'], ['b', 'b']], ['c', 'c', 'c']) :=
  ⟨by decide, linelogger_lines _ (by decide)⟩
